import Mathlib

/-!
Shallow embedding of the PDMS2 pipeline core:
`src/helpers/enrichments.py` (`enrich_json_with_summaries`) and
`src/helpers/generate_markdown.py` (`generate_markdown`),
with theorems checking the specification's claims about them.

Python dictionaries become structures; a possibly absent key becomes an
`Option` field.  A direct subscript `d['k']` on an absent key raises
`KeyError`, modelled as `Except.error PyErr.keyError`; `d.get('k')` is the
total `Option` read.  The per-element JSON file rewrites are modelled by
counting them; the two OpenAI calls (`summarize_image`, `summarize_text`)
are external collaborators and are passed in as function parameters that
either return a string or raise (`Except.error ()`).
-/

namespace PDMS2

/-- Uncaught Python exceptions of the embedded code. -/
inductive PyErr where
  | keyError
  | indexError
deriving DecidableEq, Repr

/-! ## Element stream model (partition JSON, consumed by `enrich_json_with_summaries`) -/

/-- The `metadata` sub-dictionary of a partition element; only the key read by
the enrichment code is modelled (`item['metadata'].get('image_base64')`). -/
structure ElemMetadata where
  image_base64 : Option String
deriving DecidableEq, Repr

/-- One element of the partition JSON, with the keys `enrich_json_with_summaries`
reads or writes: `type`, `text`, `summary`, `metadata`.  `metadata = none`
models an element dictionary with no `metadata` key. -/
structure Element where
  type : String
  text : Option String
  summary : Option String
  metadata : Option ElemMetadata
deriving DecidableEq, Repr

/-- An external summarization collaborator: returns the summary string or
raises (API/network error), enrichments.py lines 96-188. -/
abbrev Summarizer := String → Except Unit String

/-- `item['type'] == 'Image'` (enrichments.py line 34). -/
def isImageElem (e : Element) : Prop := e.type = "Image"

instance (e : Element) : Decidable (isImageElem e) := by
  unfold isImageElem; infer_instance

/-- `item['type'] in ['NarrativeText', 'Title', 'UncategorizedText']`
(enrichments.py line 35). -/
def isTextElem (e : Element) : Prop :=
  e.type = "NarrativeText" ∨ e.type = "Title" ∨ e.type = "UncategorizedText"

instance (e : Element) : Decidable (isTextElem e) := by
  unfold isTextElem; infer_instance

/-- One iteration of the image loop (enrichments.py lines 49-67).
`item['metadata']` is a direct subscript evaluated before the `try` block, so
a missing `metadata` key raises an uncaught `KeyError`.  `if image_base64:`
is Python truthiness: both a missing key and an empty string skip with a
warning.  On success the summary overwrites `text` and the file is rewritten
(count 1); a summarizer exception is caught, logged, and the element is left
untouched. -/
def enrichImageItem (summarize_image : Summarizer) (item : Element) :
    Except PyErr (Element × Nat) :=
  match item.metadata with
  | none => Except.error PyErr.keyError
  | some md =>
    match md.image_base64 with
    | none => Except.ok (item, 0)
    | some b =>
      if b = "" then Except.ok (item, 0)
      else
        match summarize_image b with
        | Except.ok s => Except.ok ({ item with text := some s }, 1)
        | Except.error _ => Except.ok (item, 0)

/-- One iteration of the text loop (enrichments.py lines 75-92).
`item.get('text')` is a total read; empty or missing text skips with a
warning.  On success the summary is stored in a separate `summary` key and
the file is rewritten (count 1); a summarizer exception is caught and the
element is left untouched.  No uncaught exception is possible here. -/
def enrichTextItem (summarize_text : Summarizer) (item : Element) :
    Element × Nat :=
  match item.text with
  | none => (item, 0)
  | some t =>
    if t = "" then (item, 0)
    else
      match summarize_text t with
      | Except.ok s => ({ item with summary := some s }, 1)
      | Except.error _ => (item, 0)

/-- The image loop of enrichments.py (lines 49-67).  The Python code first
filters `json_data` into the `imageElements` work list and iterates it in
original order, mutating the shared element dictionaries in place; since each
iteration touches only its own element, this equals traversing the full
sequence and applying the step to the `Image`-typed elements.  The result is
the updated sequence plus the number of file rewrites; a `KeyError` aborts
the whole pass. -/
def enrichImages (summarize_image : Summarizer) :
    List Element → Except PyErr (List Element × Nat)
  | [] => Except.ok ([], 0)
  | e :: es =>
    if isImageElem e then
      match enrichImageItem summarize_image e with
      | Except.error err => Except.error err
      | Except.ok (e', n) =>
        match enrichImages summarize_image es with
        | Except.error err => Except.error err
        | Except.ok (es', m) => Except.ok (e' :: es', n + m)
    else
      match enrichImages summarize_image es with
      | Except.error err => Except.error err
      | Except.ok (es', m) => Except.ok (e :: es', m)

/-- The text loop of enrichments.py (lines 75-92), same filtering convention
as `enrichImages`; this loop cannot raise. -/
def enrichTexts (summarize_text : Summarizer) :
    List Element → List Element × Nat
  | [] => ([], 0)
  | e :: es =>
    let (es', m) := enrichTexts summarize_text es
    if isTextElem e then
      let (e', n) := enrichTextItem summarize_text e
      (e' :: es', n + m)
    else
      (e :: es', m)

/-- `enrich_json_with_summaries` (enrichments.py lines 23-94): the image pass
over the whole sequence, then the text pass.  The JSON file is modelled as the
element sequence in and out; the `Nat` is the number of times the file was
rewritten (`json.dump` after every successfully summarized element). -/
def enrich_json_with_summaries (summarize_image summarize_text : Summarizer)
    (json_data : List Element) : Except PyErr (List Element × Nat) :=
  match enrichImages summarize_image json_data with
  | Except.error err => Except.error err
  | Except.ok (es1, n) =>
    let (es2, m) := enrichTexts summarize_text es1
    Except.ok (es2, n + m)

/-! ## Chunk model and markdown renderer (`generate_markdown`, generate_markdown.py) -/

/-- One original element inside a chunk, with the keys `generate_markdown`
reads.  Every read except the caption in the image/table branch uses
`.get(...)`, so all fields are `Option`s; `none` models an absent key. -/
structure OrigElement where
  id : Option String
  type : Option String
  text : Option String
  page_number : Option Int
  image : Option String
  image_mime_type : Option String
deriving DecidableEq, Repr

/-- One chunk of the chunked JSON.  `generate_markdown` subscripts `item['id']`
and `item['text']` directly and they are always present in the pipeline's
chunk files, so they are plain fields; `orig_elements = none` models a
missing key or a `null` value (generate_markdown.py line 37 treats both the
same way); `summary` models the `'summary' in item` membership test. -/
structure Chunk where
  id : String
  text : String
  summary : Option String
  orig_elements : Option (List OrigElement)
deriving DecidableEq, Repr

/-- `str(current_page)` as interpolated into `PAGE_FOOTER.format(...)`:
Python renders the value `None` as the string `None`. -/
def pageStr : Option Int → String
  | none => "None"
  | some n => toString n

/-- The output document, kept as the list of top-level parts appended to
`markdown_content`: accumulated page content and page footers.  The string
output is the concatenation of the rendered pieces (`renderPieces`). -/
inductive Piece where
  | text (s : String)
  | footer (page : Option Int)
deriving DecidableEq, Repr

/-- `PAGE_FOOTER.format(current_page=current_page)`, generate_markdown.py
line 19. -/
def renderPiece : Piece → String
  | Piece.text s => s
  | Piece.footer p => "\n\n---\nPage " ++ pageStr p ++ "\n\n---\n\n"

def renderPieces : List Piece → String
  | [] => ""
  | p :: ps => renderPiece p ++ renderPieces ps

/-- Python `str.splitlines`, modelled for LF-separated text (the pipeline's
JSON strings): splits on `\n`, producing no trailing empty line and `[]` on
the empty string. -/
def splitlinesAux : List Char → List Char → List String
  | acc, [] => if acc = [] then [] else [String.mk acc.reverse]
  | acc, c :: rest =>
    if c = '\n' then String.mk acc.reverse :: splitlinesAux [] rest
    else splitlinesAux (c :: acc) rest

def splitlines (s : String) : List String := splitlinesAux [] s.data

def joinSep (sep : String) : List String → String
  | [] => ""
  | [x] => x
  | x :: y :: xs => x ++ sep ++ joinSep sep (y :: xs)

/-- `chunk_text = " > " + "\n> ".join(item['text'].splitlines())`
(generate_markdown.py line 49). -/
def chunkTextQuoted (s : String) : String :=
  " > " ++ joinSep "\n> " (splitlines s)

/-- The per-element diagnostic line (generate_markdown.py line 61). -/
def elemHeaderLine (category content_id : String) : String :=
  "<div style=\x27font-size: 10px; color: lightgrey; display: block;\x27>"
    ++ category ++ " | ID: " ++ content_id ++ "</div>\n\n"

/-- The styled chunk-summary callout row (generate_markdown.py line 71). -/
def summaryCallout (summary : String) : String :=
  "| <p style=\"line-height:.9; bgcolor: #000\"><span style=\"font-family:Tahoma; font-size:.7em; color: #24a8fb\">"
    ++ summary ++ "</span></p> |\n|:--:|\n\n"

/-- The styled caption built from the element text in the image/table branch
(generate_markdown.py line 79). -/
def captionHtml (text : String) : String :=
  "<p style=\"line-height:.9; bgcolor: #000\"><span style=\"font-family:Tahoma; font-size:.7em; color: #24a8fb\">"
    ++ text ++ "</span></p>"

/-- The markup one `orig_element` contributes to `page_content`
(generate_markdown.py lines 56-83), an `if/elif` chain on
`category = orig_element.get('type', 'Unknown')`.  Note the chain tests
`'Title'` first, so the later `category in ['NarrativeText',
'UncategorizedText', 'Title']` branch can only fire for the first two.  The
image/table caption subscripts `orig_element['text']` directly, a `KeyError`
when the key is absent. -/
def renderOrigElement (item : Chunk) (orig_element : OrigElement) :
    Except PyErr String :=
  let category := orig_element.type.getD "Unknown"
  let content := orig_element.text.getD "No content"
  let eid := orig_element.id.getD "No ID"
  let headerLine := elemHeaderLine category eid
  if category = "Title" then
    Except.ok (headerLine ++ "> # " ++ content ++ "\n\n")
  else if category = "Header" then
    Except.ok (headerLine
      ++ "<div style=\x27background-color: #f7facc;color: #000;padding: 12px 2px 4px; border-bottom: 1px solid #000;\x27> "
      ++ content ++ "\n\n</div>")
  else if category = "Footer" then
    Except.ok (headerLine
      ++ "<div style=\x27background-color: #f7facc;color: #000;padding: 12px 2px 4px; border-top: 1px solid #000;\x27> "
      ++ content ++ "\n\n</div>")
  else if category = "NarrativeText" ∨ category = "UncategorizedText" ∨ category = "Title" then
    match item.summary with
    | some summary => Except.ok (headerLine ++ summaryCallout summary)
    | none => Except.ok headerLine
  else if category = "ListItem" then
    Except.ok (headerLine ++ "> - " ++ content ++ "\n")
  else if category = "Table" ∨ category = "Image" then
    match orig_element.image with
    | some image_base64 =>
      if image_base64 = "" then
        Except.ok (headerLine ++ "> Image: "
          ++ (if content = "" then "?Unknown" else content) ++ "\n\n")
      else
        let image_format :=
          if orig_element.image_mime_type = some "image/png" then "png" else "jpeg"
        match orig_element.text with
        | none => Except.error PyErr.keyError
        | some caption =>
          Except.ok (headerLine
            ++ "| ![IMAGE:](data:image/" ++ image_format ++ ";base64," ++ image_base64
            ++ ")  |\n|:--:|\n| " ++ captionHtml caption ++ " |\n\n")
    | none =>
      Except.ok (headerLine ++ "> Image: "
        ++ (if content = "" then "?Unknown" else content) ++ "\n\n")
  else
    Except.ok headerLine

/-- The inner `for orig_element in item['orig_elements']` loop
(generate_markdown.py lines 56-83), concatenating in order. -/
def renderOrigElements (item : Chunk) : List OrigElement → Except PyErr String
  | [] => Except.ok ""
  | oe :: oes =>
    match renderOrigElement item oe with
    | Except.error err => Except.error err
    | Except.ok s =>
      match renderOrigElements item oes with
      | Except.error err => Except.error err
      | Except.ok rest => Except.ok (s ++ rest)

/-- The fixed opening markup of one chunk (generate_markdown.py lines 51-54). -/
def chunkOpen (item : Chunk) : String :=
  "<details style=\x27weight:bold\x27>\n<summary>Chunk " ++ item.id ++ "</summary>\n\n"
    ++ "<details style=\x27color: #583;weight:bold;padding-left: 1em;\x27>\n<summary>Chunk Text</summary>\n\n"
    ++ chunkTextQuoted item.text ++ "\n\n</details>\n\n"
    ++ "<details style=\x27color: #1010e0;weight:bold;padding-left: 1em;\x27>\n<summary>Original Elements</summary>\n\n"

/-- Everything one chunk appends to `page_content`
(generate_markdown.py lines 49-85). -/
def renderChunkBody (item : Chunk) (oes : List OrigElement) : Except PyErr String :=
  match renderOrigElements item oes with
  | Except.error err => Except.error err
  | Except.ok elems => Except.ok (chunkOpen item ++ elems ++ "</details>\n\n</details>\n\n")

/-- The mutable locals of `generate_markdown`: `markdown_content` (as pieces),
`current_page`, `page_content`. -/
structure MdState where
  pieces : List Piece
  current_page : Option Int
  page_content : String
deriving DecidableEq, Repr

/-- `markdown_content = "\n"; current_page = None; page_content = ""`
(generate_markdown.py lines 32-34). -/
def mdInit : MdState := ⟨[Piece.text "\n"], none, ""⟩

/-- One iteration of the main `for item in json_data` loop
(generate_markdown.py lines 36-85).  A missing or `None` `orig_elements`
warns and continues with the state untouched; a present but empty list
reaches `item['orig_elements'][0]` and raises `IndexError`.  A page change
(only once the cursor is set) flushes `page_content` plus a footer naming
the completed page before the chunk's own markup is accumulated. -/
def processChunk (st : MdState) (item : Chunk) : Except PyErr MdState :=
  match item.orig_elements with
  | none => Except.ok st
  | some [] => Except.error PyErr.indexError
  | some (oe0 :: oes) =>
    let page_number := oe0.page_number
    let st1 :=
      if page_number ≠ st.current_page ∧ st.current_page ≠ none then
        { pieces := st.pieces ++ [Piece.text st.page_content, Piece.footer st.current_page],
          current_page := st.current_page, page_content := "" }
      else st
    match renderChunkBody item (oe0 :: oes) with
    | Except.error err => Except.error err
    | Except.ok body =>
      Except.ok { pieces := st1.pieces, current_page := page_number,
                  page_content := st1.page_content ++ body }

/-- The main loop over `json_data`. -/
def mdLoop (st : MdState) : List Chunk → Except PyErr MdState
  | [] => Except.ok st
  | c :: cs =>
    match processChunk st c with
    | Except.error err => Except.error err
    | Except.ok st' => mdLoop st' cs

/-- The final flush (generate_markdown.py lines 88-90): a non-empty buffer is
appended followed by a terminal footer. -/
def mdFinish (st : MdState) : List Piece :=
  if st.page_content = "" then st.pieces
  else st.pieces ++ [Piece.text st.page_content, Piece.footer st.current_page]

/-- `generate_markdown` with its output kept as the list of top-level pieces;
the string result is `renderPieces` of this. -/
def generate_markdown_pieces (json_data : List Chunk) : Except PyErr (List Piece) :=
  match mdLoop mdInit json_data with
  | Except.error err => Except.error err
  | Except.ok st => Except.ok (mdFinish st)

/-- `generate_markdown` (generate_markdown.py lines 22-92), returning the
markdown string or the uncaught exception. -/
def generate_markdown (json_data : List Chunk) : Except PyErr String :=
  match generate_markdown_pieces json_data with
  | Except.error err => Except.error err
  | Except.ok ps => Except.ok (renderPieces ps)

/-! ## Observation helpers used by the claims -/

/-- The footer pieces of an output, in order. -/
def footerPieces (ps : List Piece) : List Piece :=
  ps.filter fun p => match p with | Piece.footer _ => true | Piece.text _ => false

/-- Number of page-footer markers in the output. -/
def countFooters (ps : List Piece) : Nat := (footerPieces ps).length

/-- The page number of a chunk as the renderer determines it: the
`page_number` of its first original element (generate_markdown.py line 41). -/
def firstPage (c : Chunk) : Option Int :=
  match c.orig_elements with
  | some (oe :: _) => oe.page_number
  | _ => none

/-- The present page numbers of a chunk sequence, in order. -/
def pagesOf (cs : List Chunk) : List Int :=
  cs.filterMap firstPage

/-- Occurrence count of a (non-empty) pattern in a string, counting every
starting position. -/
def countOccursAux (pat : List Char) : List Char → Nat
  | [] => 0
  | c :: rest =>
    (if pat.isPrefixOf (c :: rest) then 1 else 0) + countOccursAux pat rest

def countOccurs (pat s : String) : Nat := countOccursAux pat.data s.data

/-- Decidable form of "this chunk has a non-empty `orig_elements` list whose
first element carries a `page_number`". -/
def chunkWellPaged (c : Chunk) : Bool :=
  match c.orig_elements with
  | some (oe :: _) => oe.page_number.isSome
  | _ => false

/-- Both passes of `enrich_json_with_summaries` seen on a single element:
the image-loop step, then the text-loop step.  `enrich_eq_fold` proves the
source's pass-by-pass composition equal to folding this over the sequence;
the per-element view is what the induction proofs use. -/
def elemStep (summarize_image summarize_text : Summarizer) (e : Element) :
    Except PyErr (Element × Nat) :=
  match (if isImageElem e then enrichImageItem summarize_image e else Except.ok (e, 0)) with
  | Except.error err => Except.error err
  | Except.ok (e1, n) =>
    let (e2, m) := if isTextElem e1 then enrichTextItem summarize_text e1 else (e1, 0)
    Except.ok (e2, n + m)

/-- `elemStep` folded over the sequence, combining rewrite counts. -/
def enrichFold (summarize_image summarize_text : Summarizer) :
    List Element → Except PyErr (List Element × Nat)
  | [] => Except.ok ([], 0)
  | e :: es =>
    match elemStep summarize_image summarize_text e with
    | Except.error err => Except.error err
    | Except.ok (e', k) =>
      match enrichFold summarize_image summarize_text es with
      | Except.error err => Except.error err
      | Except.ok (es', n) => Except.ok (e' :: es', k + n)

/-- The summarizer collaborator raises on this element's payload: an `Image`
element whose non-empty `image_base64` makes `summarize_image` raise, or a
text-set element whose non-empty `text` makes `summarize_text` raise. -/
def summarizerFails (summarize_image summarize_text : Summarizer) (e : Element) : Prop :=
  (∃ md b, e.type = "Image" ∧ e.metadata = some md ∧ md.image_base64 = some b ∧
    b ≠ "" ∧ summarize_image b = Except.error ())
  ∨ (isTextElem e ∧ ∃ t, e.text = some t ∧ t ≠ "" ∧ summarize_text t = Except.error ())

/-- An `Image` element whose metadata carries no (truthy) base64 payload. -/
def imagePayloadAbsent (e : Element) : Prop :=
  e.type = "Image" ∧
    ∀ md, e.metadata = some md → (md.image_base64 = none ∨ md.image_base64 = some "")

/-- The fallback placeholder text of the payload-less image/table branch,
by cases on the `text` key: absent, present-but-empty, present. -/
def fallbackText : Option String → String
  | none => "No content"
  | some t => if t = "" then "?Unknown" else t

/-- A summarizer stub returning a fixed string. -/
def okSum (s : String) : Summarizer := fun _ => Except.ok s

/-- A summarizer stub that always raises. -/
def failSum : Summarizer := fun _ => Except.error ()

/-! ### Concrete inputs used by counterexamples and witnesses -/

/-- An original element of a given type on a given page. -/
def mkTextOrig (ty : String) (p : Int) : OrigElement :=
  { id := some "e", type := some ty, text := some "body", page_number := some p,
    image := none, image_mime_type := none }

/-- A chunk on a given page with the given summary and elements. -/
def mkChunk (i : String) (s : Option String) (oes : List OrigElement) : Chunk :=
  { id := i, text := "chunk text", summary := s, orig_elements := some oes }

/-- Five chunks whose first elements lie on pages 1,1,2,2,3 (the spec's
page-break example). -/
def pageExampleChunks : List Chunk :=
  [mkChunk "1" none [mkTextOrig "NarrativeText" 1],
   mkChunk "2" none [mkTextOrig "NarrativeText" 1],
   mkChunk "3" none [mkTextOrig "NarrativeText" 2],
   mkChunk "4" none [mkTextOrig "NarrativeText" 2],
   mkChunk "5" none [mkTextOrig "NarrativeText" 3]]

/-- The pieces the renderer produces for `pageExampleChunks`. -/
def pageExamplePieces : List Piece :=
  (generate_markdown_pieces pageExampleChunks).toOption.getD []

/-- An already-enriched text element (summary present), as persisted by a
previous enrichment run. -/
def enrichedTextElem : Element :=
  { type := "NarrativeText", text := some "a", summary := some "old", metadata := none }

/-- A chunk carrying a chunk-level summary and two `NarrativeText` original
elements. -/
def twoNarrativeChunk : Chunk :=
  mkChunk "c" (some "ZQX9") [mkTextOrig "NarrativeText" 1, mkTextOrig "NarrativeText" 1]

/-- An `Image` original element with no payload and no `text` key at all. -/
def imageNoTextOrig : OrigElement :=
  { id := some "i", type := some "Image", text := none, page_number := some 1,
    image := none, image_mime_type := none }

/-- A chunk containing only `imageNoTextOrig`. -/
def imageNoTextChunk : Chunk := mkChunk "c" none [imageNoTextOrig]

set_option maxRecDepth 1000000

/-! ## Basic string facts used by the proofs -/

theorem string_append_ne_left (s b : String) (h : s ≠ "") : s ++ b ≠ "" := by
  intro hc
  apply h
  have hl := congrArg String.length hc
  rw [String.length_append] at hl
  have h0 : ("" : String).length = 0 := rfl
  have hs : s.length = 0 := by omega
  cases s with
  | mk data =>
    cases data with
    | nil => rfl
    | cons c cs => simp [String.length] at hs

theorem string_append_ne_right (s b : String) (h : b ≠ "") : s ++ b ≠ "" := by
  intro hc
  apply h
  have hl := congrArg String.length hc
  rw [String.length_append] at hl
  have h0 : ("" : String).length = 0 := rfl
  have hs : b.length = 0 := by omega
  cases b with
  | mk data =>
    cases data with
    | nil => rfl
    | cons c cs => simp [String.length] at hs

theorem chunkOpen_ne_empty (item : Chunk) : chunkOpen item ≠ "" := by
  unfold chunkOpen
  repeat apply string_append_ne_left
  decide

theorem renderChunkBody_ne_empty (item : Chunk) (oes : List OrigElement) (body : String)
    (h : renderChunkBody item oes = Except.ok body) : body ≠ "" := by
  unfold renderChunkBody at h
  cases hoe : renderOrigElements item oes with
  | error err => rw [hoe] at h; cases h
  | ok elems =>
    rw [hoe] at h
    cases h
    exact string_append_ne_left _ _ (string_append_ne_left _ _ (chunkOpen_ne_empty item))

/-! ## Claims about `enrich_json_with_summaries` that settle by direct computation -/

/-- C9: the `item['metadata']` lookup of the image loop happens outside the
per-element `try` block, so an `Image` element with no `metadata` key makes
`enrich_json_with_summaries` raise an uncaught `KeyError` that aborts the
whole file's enrichment pass. -/
theorem enrich_metadata_keyerror (si st : Summarizer) (e : Element) (es : List Element)
    (h1 : e.type = "Image") (h2 : e.metadata = none) :
    enrich_json_with_summaries si st (e :: es) = Except.error PyErr.keyError := by
  simp [enrich_json_with_summaries, enrichImages, isImageElem, h1, enrichImageItem, h2]

theorem enrich_metadata_keyerror_witness :
    enrich_json_with_summaries failSum failSum
      [{ type := "Image", text := none, summary := none, metadata := none }] =
      Except.error PyErr.keyError :=
  enrich_metadata_keyerror failSum failSum _ [] rfl rfl

/-- C1: on a sequence of one `Image` element with a non-empty base64 payload
and one `NarrativeText` element with non-empty text, with both summarizers
returning non-empty strings, enrichment replaces the image's `text` with the
image summary, adds the text summary as a new `summary` key on the narrative
element leaving its `text` unchanged, and rewrites the JSON file exactly
twice — once per element. -/
theorem enrich_end_to_end (si st : Summarizer) (a b : Element) (md : ElemMetadata)
    (p t s1 s2 : String)
    (ha : a.type = "Image") (hmd : a.metadata = some md) (hp : md.image_base64 = some p)
    (hpne : p ≠ "") (hb : b.type = "NarrativeText") (ht : b.text = some t) (htne : t ≠ "")
    (hsi : si p = Except.ok s1) (hs1 : s1 ≠ "") (hst : st t = Except.ok s2) (hs2 : s2 ≠ "") :
    enrich_json_with_summaries si st [a, b] =
      Except.ok ([{ a with text := some s1 }, { b with summary := some s2 }], 2) := by
  simp [enrich_json_with_summaries, enrichImages, enrichTexts, enrichImageItem, enrichTextItem,
        isImageElem, isTextElem, ha, hb, hmd, hp, hpne, ht, htne, hsi, hst]

theorem enrich_end_to_end_witness :
    enrich_json_with_summaries (okSum "An image: a pool robot") (okSum "Product Feature: ok")
      [{ type := "Image", text := some "", summary := none, metadata := some ⟨some "B64"⟩ },
       { type := "NarrativeText", text := some "hello", summary := none, metadata := none }] =
      Except.ok
        ([{ type := "Image", text := some "An image: a pool robot", summary := none,
            metadata := some ⟨some "B64"⟩ },
          { type := "NarrativeText", text := some "hello",
            summary := some "Product Feature: ok", metadata := none }], 2) :=
  enrich_end_to_end _ _ _ _ _ _ _ _ _ rfl rfl rfl (by decide) rfl rfl (by decide)
    rfl (by decide) rfl (by decide)

/-- C4 counterexample: re-running enrichment does not skip an element that
already carries a `summary`.  A `NarrativeText` element with `summary`
`"old"` (as a previous run persisted it) is re-submitted to the text
summarizer and its summary overwritten to `"new"`, with another file
rewrite — so the already-enriched element is mutated again, contradicting
the claimed skip. -/
theorem enrich_rerun_mutates_cex :
    enrich_json_with_summaries failSum (okSum "new") [enrichedTextElem] =
      Except.ok ([{ enrichedTextElem with summary := some "new" }], 1) ∧
    ({ enrichedTextElem with summary := some "new" } : Element) ≠ enrichedTextElem :=
  ⟨rfl, by decide⟩

/-! ## Claims about `generate_markdown` that settle by direct computation -/

/-- C10: a chunk whose `orig_elements` is present and non-null but empty is
not caught by the missing/null skip branch, and `item['orig_elements'][0]`
raises an uncaught `IndexError`. -/
theorem generate_markdown_empty_orig_elements (c : Chunk) (cs : List Chunk)
    (h : c.orig_elements = some []) :
    generate_markdown (c :: cs) = Except.error PyErr.indexError := by
  simp [generate_markdown, generate_markdown_pieces, mdLoop, processChunk, h]

theorem generate_markdown_empty_orig_elements_witness :
    generate_markdown [{ id := "c", text := "", summary := none, orig_elements := some [] }] =
      Except.error PyErr.indexError :=
  generate_markdown_empty_orig_elements _ [] rfl

theorem mdLoop_skips_missing_orig (c : Chunk) (h : c.orig_elements = none)
    (cs1 cs2 : List Chunk) : ∀ st, mdLoop st (cs1 ++ c :: cs2) = mdLoop st (cs1 ++ cs2) := by
  induction cs1 with
  | nil => intro st; simp [mdLoop, processChunk, h]
  | cons d cs1 ih =>
    intro st
    simp only [List.cons_append, mdLoop]
    cases hd : processChunk st d with
    | error err => simp
    | ok st' => simp; exact ih st'

/-- C8: a chunk whose `orig_elements` is missing or null is skipped entirely:
the output is exactly the output on the sequence without it, so it
contributes no markup, does not move the page cursor or page-break
decisions, and raises nothing. -/
theorem generate_markdown_skips_chunk_without_orig (cs1 cs2 : List Chunk) (c : Chunk)
    (h : c.orig_elements = none) :
    generate_markdown (cs1 ++ c :: cs2) = generate_markdown (cs1 ++ cs2) := by
  simp [generate_markdown, generate_markdown_pieces,
        mdLoop_skips_missing_orig c h cs1 cs2 mdInit]

theorem generate_markdown_skips_chunk_without_orig_witness :
    generate_markdown [{ id := "c", text := "", summary := none, orig_elements := none }] =
      generate_markdown [] :=
  generate_markdown_skips_chunk_without_orig [] [] _ rfl

/-- C5 counterexample: a chunk with a chunk-level summary and two
`NarrativeText` original elements renders the styled summary callout twice,
not once per chunk. -/
theorem summary_callout_twice_cex :
    (generate_markdown [twoNarrativeChunk]).map (countOccurs (summaryCallout "ZQX9")) =
      Except.ok 2 := rfl

/-- C6 counterexample: an `Image` element with no payload and no `text` key
renders the placeholder with the `.get` default `No content`, not the
literal `?Unknown` the claim requires for missing text. -/
theorem image_fallback_missing_text_cex :
    (generate_markdown [imageNoTextChunk]).map
      (fun s => (countOccurs "?Unknown" s, countOccurs "> Image: No content" s)) =
      Except.ok (0, 1) := rfl

/-! ## Per-element rendering rules (amended claims C5 and C6) -/

/-- C5 amended: the styled summary callout is emitted only when the chunk
itself carries a `summary`, and then once for every `NarrativeText` or
`UncategorizedText` original element of the chunk (not once per chunk);
`Title` elements are captured by the earlier `Title` branch of the `elif`
chain and never emit the callout. -/
theorem summary_callout_per_matching_element (item : Chunk) (oe : OrigElement) :
    ((oe.type = some "NarrativeText" ∨ oe.type = some "UncategorizedText") →
      renderOrigElement item oe =
        Except.ok (elemHeaderLine (oe.type.getD "Unknown") (oe.id.getD "No ID")
          ++ item.summary.elim "" summaryCallout)) ∧
    (oe.type = some "Title" →
      renderOrigElement item oe =
        Except.ok (elemHeaderLine "Title" (oe.id.getD "No ID")
          ++ "> # " ++ oe.text.getD "No content" ++ "\n\n")) := by
  constructor
  · rintro (h | h) <;>
      cases hs : item.summary <;>
        simp [renderOrigElement, h, hs, Option.elim, elemHeaderLine]
  · intro h
    simp [renderOrigElement, h, elemHeaderLine]

theorem summary_callout_per_matching_element_witness :
    renderOrigElement twoNarrativeChunk (mkTextOrig "NarrativeText" 1) =
      Except.ok (elemHeaderLine "NarrativeText" "e" ++ summaryCallout "ZQX9") :=
  (summary_callout_per_matching_element twoNarrativeChunk (mkTextOrig "NarrativeText" 1)).1
    (Or.inl rfl)

/-- C6 amended: a `Table` or `Image` element without a truthy payload renders
as the plain placeholder line whose text is the element's `text` when
present and non-empty, the literal `?Unknown` when the `text` key is present
but empty, and the `.get` default `No content` when the `text` key is
missing; with a payload it renders the embedded image reference (`png` only
when the mime type is exactly `image/png`, else `jpeg`) plus a caption row
built from the element's `text`. -/
theorem image_table_rendering (item : Chunk) (oe : OrigElement)
    (hcat : oe.type = some "Table" ∨ oe.type = some "Image") :
    ((oe.image = none ∨ oe.image = some "") →
      renderOrigElement item oe =
        Except.ok (elemHeaderLine (oe.type.getD "Unknown") (oe.id.getD "No ID")
          ++ "> Image: " ++ fallbackText oe.text ++ "\n\n")) ∧
    (∀ b t, oe.image = some b → b ≠ "" → oe.text = some t →
      renderOrigElement item oe =
        Except.ok (elemHeaderLine (oe.type.getD "Unknown") (oe.id.getD "No ID")
          ++ "| ![IMAGE:](data:image/"
          ++ (if oe.image_mime_type = some "image/png" then "png" else "jpeg")
          ++ ";base64," ++ b ++ ")  |\n|:--:|\n| " ++ captionHtml t ++ " |\n\n")) := by
  constructor
  · rintro (h | h) <;>
      rcases hcat with hc | hc <;>
        cases ht : oe.text <;>
          simp [renderOrigElement, hc, h, ht, fallbackText]
  · intro b t hb hbne ht
    rcases hcat with hc | hc <;>
      simp [renderOrigElement, hc, hb, hbne, ht]

theorem image_table_rendering_witness :
    renderOrigElement imageNoTextChunk imageNoTextOrig =
      Except.ok (elemHeaderLine "Image" "i" ++ "> Image: " ++ fallbackText none ++ "\n\n") :=
  (image_table_rendering imageNoTextChunk imageNoTextOrig (Or.inr rfl)).1 (Or.inl rfl)

/-! ## The per-element view of the two enrichment passes -/

theorem enrichImageItem_fields (si : Summarizer) (e e' : Element) (n : Nat)
    (h : enrichImageItem si e = Except.ok (e', n)) :
    e'.type = e.type ∧ e'.summary = e.summary ∧ e'.metadata = e.metadata := by
  cases hm : e.metadata with
  | none =>
    simp only [enrichImageItem, hm] at h
    exact Except.noConfusion h
  | some md =>
    simp only [enrichImageItem, hm] at h
    cases hb : md.image_base64 with
    | none =>
      simp only [hb, Except.ok.injEq, Prod.mk.injEq] at h
      obtain ⟨he, hn⟩ := h
      subst he
      simp [hm]
    | some b =>
      simp only [hb] at h
      by_cases hbe : b = ""
      · simp only [if_pos hbe, Except.ok.injEq, Prod.mk.injEq] at h
        obtain ⟨he, hn⟩ := h
        subst he
        simp [hm]
      · simp only [if_neg hbe] at h
        cases hsi : si b with
        | ok s =>
          simp only [hsi, Except.ok.injEq, Prod.mk.injEq] at h
          obtain ⟨he, hn⟩ := h
          subst he
          simp [hm]
        | error err =>
          simp only [hsi, Except.ok.injEq, Prod.mk.injEq] at h
          obtain ⟨he, hn⟩ := h
          subst he
          simp [hm]

theorem enrichTextItem_fields (st : Summarizer) (e e' : Element) (n : Nat)
    (h : enrichTextItem st e = (e', n)) :
    e'.type = e.type ∧ e'.text = e.text ∧ e'.metadata = e.metadata := by
  cases ht : e.text with
  | none =>
    simp only [enrichTextItem, ht, Prod.mk.injEq] at h
    obtain ⟨he, hn⟩ := h
    subst he
    simp [ht]
  | some t =>
    simp only [enrichTextItem, ht] at h
    by_cases hte : t = ""
    · simp only [if_pos hte, Prod.mk.injEq] at h
      obtain ⟨he, hn⟩ := h
      subst he
      simp [ht]
    · simp only [if_neg hte] at h
      cases hst : st t with
      | ok s =>
        simp only [hst, Prod.mk.injEq] at h
        obtain ⟨he, hn⟩ := h
        subst he
        simp [ht]
      | error err =>
        simp only [hst, Prod.mk.injEq] at h
        obtain ⟨he, hn⟩ := h
        subst he
        simp [ht]

theorem elemStep_not_enrichable (si st : Summarizer) (e : Element)
    (hie : ¬ isImageElem e) (hit : ¬ isTextElem e) :
    elemStep si st e = Except.ok (e, 0) := by
  simp [elemStep, hie, hit]

theorem elemStep_text (si st : Summarizer) (e : Element)
    (hie : ¬ isImageElem e) (hit : isTextElem e) :
    elemStep si st e = Except.ok (enrichTextItem st e) := by
  rcases hti : enrichTextItem st e with ⟨e2, m⟩
  simp [elemStep, hie, hit, hti]

theorem elemStep_image (si st : Summarizer) (e : Element) (hie : isImageElem e) :
    elemStep si st e = enrichImageItem si e := by
  cases hstep : enrichImageItem si e with
  | error err => simp [elemStep, hie, hstep]
  | ok p =>
    obtain ⟨e1, n⟩ := p
    have hnt : ¬ isTextElem e1 := by
      have h1 : e1.type = "Image" := by
        rw [(enrichImageItem_fields si e e1 n hstep).1]; exact hie
      simp [isTextElem, h1]
    simp [elemStep, hie, hstep, hnt]

/-- The source's pass-by-pass composition (all images, then all texts) equals
the single per-element fold: the two work lists are disjoint (an element's
`type` cannot be both `Image` and a text type), each loop iteration touches
only its own element, and only the image loop can raise. -/
theorem enrich_eq_fold (si st : Summarizer) (es : List Element) :
    enrich_json_with_summaries si st es = enrichFold si st es := by
  induction es with
  | nil => rfl
  | cons e es ih =>
    by_cases hie : isImageElem e
    · cases hstep : enrichImageItem si e with
      | error err =>
        simp [enrich_json_with_summaries, enrichImages, if_pos hie, hstep, enrichFold, elemStep]
      | ok p =>
        obtain ⟨e1, k⟩ := p
        have hfields := enrichImageItem_fields si e e1 k hstep
        have hnt : ¬ isTextElem e1 := by
          have h1 : e1.type = "Image" := by rw [hfields.1]; exact hie
          simp [isTextElem, h1]
        cases himg : enrichImages si es with
        | error err =>
          have hes : enrichFold si st es = Except.error err := by
            rw [← ih]; simp [enrich_json_with_summaries, himg]
          simp [enrich_json_with_summaries, enrichImages, if_pos hie, hstep, himg,
                enrichFold, elemStep, hnt, hes]
        | ok p2 =>
          obtain ⟨es1, n1⟩ := p2
          rcases htx : enrichTexts st es1 with ⟨ts, m⟩
          have hes : enrichFold si st es = Except.ok (ts, n1 + m) := by
            rw [← ih]; simp [enrich_json_with_summaries, himg, htx]
          simp [enrich_json_with_summaries, enrichImages, if_pos hie, hstep, himg,
                enrichTexts, hnt, htx, enrichFold, elemStep, hes]
          omega
    · cases himg : enrichImages si es with
      | error err =>
        have hes : enrichFold si st es = Except.error err := by
          rw [← ih]; simp [enrich_json_with_summaries, himg]
        by_cases hit : isTextElem e
        · rcases hti : enrichTextItem st e with ⟨e2, m0⟩
          simp [enrich_json_with_summaries, enrichImages, if_neg hie, himg, enrichFold,
                elemStep, hie, hit, hti, hes]
        · simp [enrich_json_with_summaries, enrichImages, if_neg hie, himg, enrichFold,
                elemStep, hie, hit, hes]
      | ok p2 =>
        obtain ⟨es1, n1⟩ := p2
        rcases htx : enrichTexts st es1 with ⟨ts, m⟩
        have hes : enrichFold si st es = Except.ok (ts, n1 + m) := by
          rw [← ih]; simp [enrich_json_with_summaries, himg, htx]
        by_cases hit : isTextElem e
        · rcases hti : enrichTextItem st e with ⟨e2, m0⟩
          simp [enrich_json_with_summaries, enrichImages, if_neg hie, himg, enrichTexts,
                elemStep, hie, hit, hti, htx, enrichFold, hes]
          omega
        · simp [enrich_json_with_summaries, enrichImages, if_neg hie, himg, enrichTexts,
                elemStep, hie, hit, htx, enrichFold, hes]

/-! ## Idempotence of re-running enrichment with fixed summarizers -/

theorem enrichImageItem_idem (si : Summarizer) (e e' : Element) (n : Nat)
    (h : enrichImageItem si e = Except.ok (e', n)) :
    enrichImageItem si e' = Except.ok (e', n) := by
  cases hm : e.metadata with
  | none =>
    simp only [enrichImageItem, hm] at h
    exact Except.noConfusion h
  | some md =>
    simp only [enrichImageItem, hm] at h
    cases hb : md.image_base64 with
    | none =>
      simp only [hb, Except.ok.injEq, Prod.mk.injEq] at h
      obtain ⟨he, hn⟩ := h
      subst he; subst hn
      simp [enrichImageItem, hm, hb]
    | some b =>
      simp only [hb] at h
      by_cases hbe : b = ""
      · simp only [if_pos hbe, Except.ok.injEq, Prod.mk.injEq] at h
        obtain ⟨he, hn⟩ := h
        subst he; subst hn
        simp [enrichImageItem, hm, hb, hbe]
      · simp only [if_neg hbe] at h
        cases hsi : si b with
        | ok s =>
          simp only [hsi, Except.ok.injEq, Prod.mk.injEq] at h
          obtain ⟨he, hn⟩ := h
          subst he; subst hn
          simp [enrichImageItem, hm, hb, hbe, hsi]
        | error err =>
          simp only [hsi, Except.ok.injEq, Prod.mk.injEq] at h
          obtain ⟨he, hn⟩ := h
          subst he; subst hn
          simp [enrichImageItem, hm, hb, hbe, hsi]

theorem enrichTextItem_idem (st : Summarizer) (e e' : Element) (n : Nat)
    (h : enrichTextItem st e = (e', n)) :
    enrichTextItem st e' = (e', n) := by
  cases ht : e.text with
  | none =>
    simp only [enrichTextItem, ht, Prod.mk.injEq] at h
    obtain ⟨he, hn⟩ := h
    subst he; subst hn
    simp [enrichTextItem, ht]
  | some t =>
    simp only [enrichTextItem, ht] at h
    by_cases hte : t = ""
    · simp only [if_pos hte, Prod.mk.injEq] at h
      obtain ⟨he, hn⟩ := h
      subst he; subst hn
      simp [enrichTextItem, ht, hte]
    · simp only [if_neg hte] at h
      cases hst : st t with
      | ok s =>
        simp only [hst, Prod.mk.injEq] at h
        obtain ⟨he, hn⟩ := h
        subst he; subst hn
        simp [enrichTextItem, ht, hte, hst]
      | error err =>
        simp only [hst, Prod.mk.injEq] at h
        obtain ⟨he, hn⟩ := h
        subst he; subst hn
        simp [enrichTextItem, ht, hte, hst]

theorem elemStep_idem (si st : Summarizer) (e e' : Element) (k : Nat)
    (h : elemStep si st e = Except.ok (e', k)) :
    elemStep si st e' = Except.ok (e', k) := by
  by_cases hie : isImageElem e
  · rw [elemStep_image si st e hie] at h
    have hie' : isImageElem e' := by
      have h1 := (enrichImageItem_fields si e e' k h).1
      unfold isImageElem at hie ⊢
      rw [h1]; exact hie
    rw [elemStep_image si st e' hie']
    exact enrichImageItem_idem si e e' k h
  · by_cases hit : isTextElem e
    · rw [elemStep_text si st e hie hit] at h
      injection h with h1
      have hf := enrichTextItem_fields st e e' k h1
      have hie' : ¬ isImageElem e' := by
        unfold isImageElem at hie ⊢
        rw [hf.1]; exact hie
      have hit' : isTextElem e' := by
        unfold isTextElem at hit ⊢
        rw [hf.1]; exact hit
      rw [elemStep_text si st e' hie' hit']
      rw [enrichTextItem_idem st e e' k h1]
    · rw [elemStep_not_enrichable si st e hie hit] at h
      simp only [Except.ok.injEq, Prod.mk.injEq] at h
      obtain ⟨he, hk⟩ := h
      subst he; subst hk
      exact elemStep_not_enrichable si st e hie hit

theorem enrichFold_idem (si st : Summarizer) :
    ∀ (es out : List Element) (n : Nat), enrichFold si st es = Except.ok (out, n) →
      enrichFold si st out = Except.ok (out, n) := by
  intro es
  induction es with
  | nil =>
    intro out n h
    simp only [enrichFold, Except.ok.injEq, Prod.mk.injEq] at h
    obtain ⟨ho, hn⟩ := h
    subst ho; subst hn
    rfl
  | cons e es ih =>
    intro out n h
    simp only [enrichFold] at h
    cases hstep : elemStep si st e with
    | error err =>
      simp only [hstep] at h
      exact Except.noConfusion h
    | ok p =>
      obtain ⟨e', k⟩ := p
      simp only [hstep] at h
      cases hf : enrichFold si st es with
      | error err =>
        simp only [hf] at h
        exact Except.noConfusion h
      | ok q =>
        obtain ⟨es', m⟩ := q
        simp only [hf, Except.ok.injEq, Prod.mk.injEq] at h
        obtain ⟨hout, hn⟩ := h
        subst hout; subst hn
        simp only [enrichFold, elemStep_idem si st e e' k hstep, ih es' m hf]

/-- C4 amended: re-running enrichment does not skip already-enriched
elements — each eligible element is re-submitted to its summarizer and its
`summary`/`text` overwritten, with the same per-element file rewrites as the
first run.  What does hold is content idempotence for fixed, deterministic
summarizers: running enrichment on its own output returns the same element
sequence (and the same rewrite count `n`, not `0` — evidence that nothing is
skipped). -/
theorem enrich_rerun_content_stable (si st : Summarizer) (es out : List Element) (n : Nat)
    (h : enrich_json_with_summaries si st es = Except.ok (out, n)) :
    enrich_json_with_summaries si st out = Except.ok (out, n) := by
  rw [enrich_eq_fold] at h ⊢
  exact enrichFold_idem si st es out n h

theorem enrich_rerun_content_stable_witness :
    enrich_json_with_summaries failSum (okSum "S")
      [{ type := "NarrativeText", text := some "t", summary := some "S", metadata := none }] =
      Except.ok
        ([{ type := "NarrativeText", text := some "t", summary := some "S", metadata := none }], 1) :=
  enrich_rerun_content_stable failSum (okSum "S")
    [{ type := "NarrativeText", text := some "t", summary := none, metadata := none }] _ _ rfl


/-! ## Failure isolation and the frame of enrichment -/
theorem enrichImageItem_ok_of_metadata (si : Summarizer) (e : Element) (md : ElemMetadata)
    (hm : e.metadata = some md) :
    ∃ e' k, enrichImageItem si e = Except.ok (e', k) := by
  cases hb : md.image_base64 with
  | none => exact ⟨e, 0, by simp [enrichImageItem, hm, hb]⟩
  | some b =>
    by_cases hbe : b = ""
    · exact ⟨e, 0, by simp [enrichImageItem, hm, hb, hbe]⟩
    · cases hsi : si b with
      | ok s => exact ⟨{ e with text := some s }, 1, by simp [enrichImageItem, hm, hb, hbe, hsi]⟩
      | error err => exact ⟨e, 0, by simp [enrichImageItem, hm, hb, hbe, hsi]⟩

theorem elemStep_ok_of_metadata (si st : Summarizer) (e : Element)
    (hm : isImageElem e → e.metadata ≠ none) :
    ∃ e' k, elemStep si st e = Except.ok (e', k) := by
  by_cases hie : isImageElem e
  · rw [elemStep_image si st e hie]
    cases hmm : e.metadata with
    | none => exact absurd hmm (hm hie)
    | some md => exact enrichImageItem_ok_of_metadata si e md hmm
  · by_cases hit : isTextElem e
    · rcases hti : enrichTextItem st e with ⟨e2, m⟩
      exact ⟨e2, m, by rw [elemStep_text si st e hie hit, hti]⟩
    · exact ⟨e, 0, elemStep_not_enrichable si st e hie hit⟩

theorem elemStep_unchanged_of_skip (si st : Summarizer) (e : Element)
    (hcond : summarizerFails si st e ∨ imagePayloadAbsent e) (e' : Element) (k : Nat)
    (h : elemStep si st e = Except.ok (e', k)) : e' = e := by
  rcases hcond with hfail | habs
  · rcases hfail with ⟨md, b, hty, hmd, hb, hbne, hsi⟩ | ⟨hit, t, ht, htne, hst⟩
    · have hie : isImageElem e := hty
      rw [elemStep_image si st e hie] at h
      simp only [enrichImageItem, hmd, hb, if_neg hbne, hsi, Except.ok.injEq,
        Prod.mk.injEq] at h
      exact h.1.symm
    · have hie : ¬ isImageElem e := by
        rcases hit with h1 | h1 | h1 <;> simp [isImageElem, h1]
      rw [elemStep_text si st e hie hit] at h
      injection h with h1
      simp only [enrichTextItem, ht, if_neg htne, hst, Prod.mk.injEq] at h1
      exact h1.1.symm
  · obtain ⟨hty, hpl⟩ := habs
    have hie : isImageElem e := hty
    rw [elemStep_image si st e hie] at h
    cases hmm : e.metadata with
    | none =>
      simp only [enrichImageItem, hmm] at h
      exact Except.noConfusion h
    | some md =>
      rcases hpl md hmm with hb | hb
      · simp only [enrichImageItem, hmm, hb, Except.ok.injEq, Prod.mk.injEq] at h
        exact h.1.symm
      · simp [enrichImageItem, hmm, hb] at h
        exact h.1.symm

theorem enrichFold_isolation (si st : Summarizer) : ∀ (es : List Element),
    (∀ e ∈ es, e.type = "Image" → e.metadata ≠ none) →
    ∃ out n, enrichFold si st es = Except.ok (out, n) ∧
      List.Forall₂ (fun e o => (summarizerFails si st e ∨ imagePayloadAbsent e) → o = e) es out := by
  intro es
  induction es with
  | nil => intro _; exact ⟨[], 0, rfl, List.Forall₂.nil⟩
  | cons e es ih =>
    intro hm
    obtain ⟨out, n, hfold, hall⟩ := ih (fun x hx hty => hm x (List.mem_cons_of_mem e hx) hty)
    obtain ⟨e', k, hstep⟩ :=
      elemStep_ok_of_metadata si st e (fun hie => hm e (List.mem_cons_self e es) hie)
    refine ⟨e' :: out, k + n, ?_, ?_⟩
    · simp only [enrichFold, hstep, hfold]
    · exact List.Forall₂.cons
        (fun hc => elemStep_unchanged_of_skip si st e hc e' k hstep) hall


/-- C3: as long as every `Image` element has a `metadata` key,
`enrich_json_with_summaries` returns normally whatever the summarizers do:
a summarizer exception on an element is caught, logged, and leaves that
element completely unchanged, and an `Image` element without a truthy
payload is skipped with a warning rather than failing — no summarizer
exception propagates out. -/
theorem enrich_failure_isolation (si st : Summarizer) (es : List Element)
    (hm : ∀ e ∈ es, e.type = "Image" → e.metadata ≠ none) :
    ∃ out n, enrich_json_with_summaries si st es = Except.ok (out, n) ∧
      List.Forall₂ (fun e o => (summarizerFails si st e ∨ imagePayloadAbsent e) → o = e) es out := by
  rw [enrich_eq_fold]
  exact enrichFold_isolation si st es hm

theorem enrich_failure_isolation_witness :
    ∃ out n,
      enrich_json_with_summaries failSum failSum
        [{ type := "Image", text := some "pic", summary := none, metadata := some ⟨some "B64"⟩ },
         { type := "NarrativeText", text := some "hello", summary := none, metadata := none },
         { type := "Image", text := some "logo", summary := none, metadata := some ⟨none⟩ }] =
        Except.ok (out, n) ∧
      List.Forall₂ (fun e o => (summarizerFails failSum failSum e ∨ imagePayloadAbsent e) → o = e)
        [{ type := "Image", text := some "pic", summary := none, metadata := some ⟨some "B64"⟩ },
         { type := "NarrativeText", text := some "hello", summary := none, metadata := none },
         { type := "Image", text := some "logo", summary := none, metadata := some ⟨none⟩ }] out :=
  enrich_failure_isolation failSum failSum _ (by decide)

theorem elemStep_frame (si st : Summarizer) (e e' : Element) (k : Nat)
    (h : elemStep si st e = Except.ok (e', k)) :
    e'.type = e.type ∧ e'.metadata = e.metadata ∧
      (¬ isImageElem e ∧ ¬ isTextElem e → e' = e) ∧
      (isTextElem e → e'.text = e.text) ∧ (isImageElem e → e'.summary = e.summary) := by
  by_cases hie : isImageElem e
  · rw [elemStep_image si st e hie] at h
    have hf := enrichImageItem_fields si e e' k h
    have hnt : ¬ isTextElem e := by
      have h1 : e.type = "Image" := hie
      simp [isTextElem, h1]
    exact ⟨hf.1, hf.2.2, fun hc => absurd hie hc.1, fun hit => absurd hit hnt,
      fun _ => hf.2.1⟩
  · by_cases hit : isTextElem e
    · rw [elemStep_text si st e hie hit] at h
      injection h with h1
      have hf := enrichTextItem_fields st e e' k h1
      exact ⟨hf.1, hf.2.2, fun hc => absurd hit hc.2, fun _ => hf.2.1,
        fun himg => absurd himg hie⟩
    · rw [elemStep_not_enrichable si st e hie hit] at h
      simp only [Except.ok.injEq, Prod.mk.injEq] at h
      obtain ⟨he, hk⟩ := h
      subst he
      exact ⟨rfl, rfl, fun _ => rfl, fun _ => rfl, fun _ => rfl⟩

theorem enrichFold_frame (si st : Summarizer) : ∀ (es out : List Element) (n : Nat),
    enrichFold si st es = Except.ok (out, n) →
    List.Forall₂ (fun e o => o.type = e.type ∧ o.metadata = e.metadata ∧
      (¬ isImageElem e ∧ ¬ isTextElem e → o = e) ∧
      (isTextElem e → o.text = e.text) ∧ (isImageElem e → o.summary = e.summary)) es out := by
  intro es
  induction es with
  | nil =>
    intro out n h
    simp only [enrichFold, Except.ok.injEq, Prod.mk.injEq] at h
    obtain ⟨ho, hn⟩ := h
    subst ho
    exact List.Forall₂.nil
  | cons e es ih =>
    intro out n h
    simp only [enrichFold] at h
    cases hstep : elemStep si st e with
    | error err =>
      simp only [hstep] at h
      exact Except.noConfusion h
    | ok p =>
      obtain ⟨e', k⟩ := p
      simp only [hstep] at h
      cases hf : enrichFold si st es with
      | error err =>
        simp only [hf] at h
        exact Except.noConfusion h
      | ok q =>
        obtain ⟨es', m⟩ := q
        simp only [hf, Except.ok.injEq, Prod.mk.injEq] at h
        obtain ⟨hout, hn⟩ := h
        subst hout
        exact List.Forall₂.cons (elemStep_frame si st e e' k hstep) (ih es' m hf)

/-- C7: `enrich_json_with_summaries` preserves the number and relative
order of elements (captured index-wise by `List.Forall₂`), leaves every
element whose type is outside {Image, NarrativeText, Title,
UncategorizedText} completely unchanged, and mutates at most `text` on
image-set elements (never `summary`) and at most `summary` on text-set
elements (never `text`); `type` and `metadata` never change. -/
theorem enrich_frame (si st : Summarizer) (es out : List Element) (n : Nat)
    (h : enrich_json_with_summaries si st es = Except.ok (out, n)) :
    out.length = es.length ∧
      List.Forall₂ (fun e o => o.type = e.type ∧ o.metadata = e.metadata ∧
        (¬ isImageElem e ∧ ¬ isTextElem e → o = e) ∧
        (isTextElem e → o.text = e.text) ∧ (isImageElem e → o.summary = e.summary)) es out := by
  rw [enrich_eq_fold] at h
  have hf := enrichFold_frame si st es out n h
  exact ⟨hf.length_eq.symm, hf⟩

theorem enrich_frame_witness :
    ([{ type := "Header", text := some "h", summary := none, metadata := none },
      { type := "NarrativeText", text := some "hello", summary := some "S", metadata := none }] :
        List Element).length =
      ([{ type := "Header", text := some "h", summary := none, metadata := none },
        { type := "NarrativeText", text := some "hello", summary := none, metadata := none }] :
          List Element).length ∧
    List.Forall₂ (fun e o => o.type = e.type ∧ o.metadata = e.metadata ∧
        (¬ isImageElem e ∧ ¬ isTextElem e → o = e) ∧
        (isTextElem e → o.text = e.text) ∧ (isImageElem e → o.summary = e.summary))
      [{ type := "Header", text := some "h", summary := none, metadata := none },
       { type := "NarrativeText", text := some "hello", summary := none, metadata := none }]
      [{ type := "Header", text := some "h", summary := none, metadata := none },
       { type := "NarrativeText", text := some "hello", summary := some "S", metadata := none }] :=
  enrich_frame failSum (okSum "S") _ _ 1 rfl


/-! ## Page-break correctness of the renderer -/
theorem mdLoop_footers (cs : List Chunk) : ∀ (st : MdState) (q : Int) (st' : MdState),
    st.current_page = some q → st.page_content ≠ "" →
    (∀ c ∈ cs, chunkWellPaged c = true) →
    List.Sorted (· ≤ ·) (q :: pagesOf cs) →
    mdLoop st cs = Except.ok st' →
    footerPieces (mdFinish st') =
      footerPieces st.pieces ++ ((q :: pagesOf cs).dedup.map fun r => Piece.footer (some r)) := by
  induction cs with
  | nil =>
    intro st q st' hq hpcne _ _ hloop
    simp only [mdLoop, Except.ok.injEq] at hloop
    subst hloop
    simp [mdFinish, if_neg hpcne, hq, footerPieces, List.filter_append, pagesOf,
      List.dedup_cons_of_not_mem, List.not_mem_nil]
  | cons c cs ih =>
    intro st q st' hq hpcne hwp hsort hloop
    have hc := hwp c (List.mem_cons_self c cs)
    cases ho : c.orig_elements with
    | none => simp [chunkWellPaged, ho] at hc
    | some l =>
      cases l with
      | nil => simp [chunkWellPaged, ho] at hc
      | cons oe0 rest =>
        simp only [chunkWellPaged, ho] at hc
        obtain ⟨v, hv⟩ := Option.isSome_iff_exists.mp hc
        have hfp : firstPage c = some v := by simp [firstPage, ho, hv]
        have hpages : pagesOf (c :: cs) = v :: pagesOf cs := by
          simp [pagesOf, List.filterMap_cons, hfp]
        rw [hpages] at hsort
        cases hrb : renderChunkBody c (oe0 :: rest) with
        | error err =>
          have hpc : processChunk st c = Except.error err := by
            simp [processChunk, ho, hrb]
          simp only [mdLoop, hpc] at hloop
          exact Except.noConfusion hloop
        | ok body =>
          have hbody : body ≠ "" := renderChunkBody_ne_empty c (oe0 :: rest) body hrb
          by_cases hvq : v = q
          · subst hvq
            have hpc : processChunk st c =
                Except.ok ⟨st.pieces, some v, st.page_content ++ body⟩ := by
              simp [processChunk, ho, hrb, hv, hq]
            simp only [mdLoop, hpc] at hloop
            have hres := ih ⟨st.pieces, some v, st.page_content ++ body⟩ v st' rfl
              (string_append_ne_left _ _ hpcne)
              (fun x hx => hwp x (List.mem_cons_of_mem c hx))
              (hsort.of_cons) hloop
            rw [hres, hpages]
            rw [List.dedup_cons_of_mem (List.mem_cons_self v (pagesOf cs))]
          · have hpc : processChunk st c =
                Except.ok ⟨st.pieces ++ [Piece.text st.page_content, Piece.footer (some q)],
                  some v, body⟩ := by
              simp [processChunk, ho, hrb, hv, hq, hvq]
            simp only [mdLoop, hpc] at hloop
            have hres := ih
              ⟨st.pieces ++ [Piece.text st.page_content, Piece.footer (some q)],
                some v, body⟩ v st' rfl
              hbody
              (fun x hx => hwp x (List.mem_cons_of_mem c hx))
              (hsort.of_cons) hloop
            have hnotmem : q ∉ v :: pagesOf cs := by
              intro hmem
              obtain ⟨hqle, htail⟩ := List.sorted_cons.mp hsort
              rcases List.mem_cons.mp hmem with heq | hps
              · exact hvq heq.symm
              · obtain ⟨hvle, _⟩ := List.sorted_cons.mp htail
                exact hvq (le_antisymm (hvle q hps) (hqle v (List.mem_cons_self v _)))
            rw [hres, hpages, List.dedup_cons_of_not_mem hnotmem]
            simp [footerPieces, List.filter_append]
  
/-- C2: for a chunk sequence in which every chunk has a non-empty
`orig_elements` list whose first element carries a `page_number`, and those
page numbers form a non-decreasing sequence, `generate_markdown` emits
exactly one page-footer marker per distinct page — one at each page
transition naming the just-completed page, plus a terminal footer after the
final page's content — so with `p` distinct pages exactly `p` footers
appear (the witness instantiates the spec's `[1,1,2,2,3]` example with 3
footers). -/
theorem generate_markdown_footer_count (cs : List Chunk) (ps : List Piece)
    (hwp : ∀ c ∈ cs, chunkWellPaged c = true)
    (hsort : List.Sorted (· ≤ ·) (pagesOf cs))
    (hok : generate_markdown_pieces cs = Except.ok ps) :
    footerPieces ps = (pagesOf cs).dedup.map (fun r => Piece.footer (some r)) ∧
      countFooters ps = (pagesOf cs).dedup.length := by
  suffices h : footerPieces ps = (pagesOf cs).dedup.map (fun r => Piece.footer (some r)) by
    refine ⟨h, ?_⟩
    rw [countFooters, h, List.length_map]
  cases cs with
  | nil =>
    simp only [generate_markdown_pieces, mdLoop, mdFinish, mdInit, Except.ok.injEq] at hok
    subst hok
    simp [pagesOf, footerPieces]
  | cons c cs =>
    have hc := hwp c (List.mem_cons_self c cs)
    cases ho : c.orig_elements with
    | none => simp [chunkWellPaged, ho] at hc
    | some l =>
      cases l with
      | nil => simp [chunkWellPaged, ho] at hc
      | cons oe0 rest =>
        simp only [chunkWellPaged, ho] at hc
        obtain ⟨v, hv⟩ := Option.isSome_iff_exists.mp hc
        have hfp : firstPage c = some v := by simp [firstPage, ho, hv]
        have hpages : pagesOf (c :: cs) = v :: pagesOf cs := by
          simp [pagesOf, List.filterMap_cons, hfp]
        rw [hpages] at hsort ⊢
        cases hrb : renderChunkBody c (oe0 :: rest) with
        | error err =>
          have hpc : processChunk mdInit c = Except.error err := by
            simp [processChunk, ho, hrb]
          simp only [generate_markdown_pieces, mdLoop, hpc] at hok
          exact Except.noConfusion hok
        | ok body =>
          have hbody : body ≠ "" := renderChunkBody_ne_empty c (oe0 :: rest) body hrb
          have hpc : processChunk mdInit c =
              Except.ok ⟨[Piece.text "\n"], some v, body⟩ := by
            simp [processChunk, ho, hrb, hv, mdInit]
          simp only [generate_markdown_pieces, mdLoop, hpc] at hok
          cases hloop : mdLoop ⟨[Piece.text "\n"], some v, body⟩ cs with
          | error err =>
            rw [hloop] at hok
            exact Except.noConfusion hok
          | ok stf =>
            rw [hloop] at hok
            simp only [Except.ok.injEq] at hok
            subst hok
            have hres := mdLoop_footers cs ⟨[Piece.text "\n"], some v, body⟩ v stf rfl
              hbody
              (fun x hx => hwp x (List.mem_cons_of_mem c hx)) hsort hloop
            rw [hres]
            simp [footerPieces]

theorem generate_markdown_footer_count_witness :
    (∀ c ∈ pageExampleChunks, chunkWellPaged c = true) ∧
    List.Sorted (· ≤ ·) (pagesOf pageExampleChunks) ∧
    countFooters pageExamplePieces = 3 := by
  refine ⟨by decide, by decide, ?_⟩
  have h := generate_markdown_footer_count pageExampleChunks pageExamplePieces
    (by decide) (by decide) rfl
  rw [h.2]
  decide

end PDMS2
